import Mathlib

/-!
Verification of the logo-png core: the pixel compositor (`get_logo_data`,
`write_character`), the color decoder embedded in it, the PNG surface
(`get_logo_png`), the update pipeline (`update_logo`) and the history
query (`get_history`), shallowly embedded from `src/logo.rs` and
`src/db.rs`.

Conventions of the embedding:
- Rust `usize` / `u32` / `u8` values are `Nat`; where the source can wrap
  (casts, index arithmetic in release mode) an explicit `% 2^w` is taken.
- Rust `i32` values are `Int` reduced into the signed 32-bit range at the
  points where the source casts.
- A Rust panic (out-of-bounds slice index, `.unwrap()` on `Err`) is the
  distinguished outcome `RenderError.panicked` of an `Except` value.
- Color tokens (Rust `String`) are `List Char`; token length is the list
  length (the source measures bytes, which coincides for the ASCII hex
  tokens the decoder recognizes).
- The image buffer (Rust `Vec<u8>`) is a `List Nat` with an explicit
  bounds check on every store, mirroring Rust's indexed assignment.
-/

/-- Modulus of Rust `usize` arithmetic (64-bit target). -/
def USIZE : Nat := 2 ^ 64

/-- Wrapping `usize` arithmetic, as in a Rust release build. -/
def wrap (n : Nat) : Nat := n % USIZE

/-- Truncating cast to `u32`, as in Rust `as u32`. -/
def wrap32 (n : Nat) : Nat := n % 2 ^ 32

/-- Reduce an integer into the signed 32-bit range, as Rust `as i32`
and wrapping `i32` arithmetic do. -/
def asI32 (z : Int) : Int :=
  let m := z % (2 ^ 32 : Int)
  if m < 2 ^ 31 then m else m - 2 ^ 32

/-- Rust `i32 as usize`: sign extension to 64 bits. -/
def i32ToUsize (z : Int) : Nat := (z % (USIZE : Int)).toNat

/-- A color token of the description: one entry of a panel's pixel list
(`String` in `LogoResponse.logo`). -/
abbrev Token := List Char

/-- One panel of a character: its ordered pixel tokens (`Vec<String>`). -/
abbrev Panel := List Token

/-- One character of the description: its ordered panels
(`Vec<Vec<String>>`). -/
abbrev Character := List Panel

/-- The logo description: the `logo` field of `LogoResponse`
(`Vec<Vec<Vec<String>>>`). Equality is structural, as the derived
`PartialEq` of the source. -/
abbrev LogoDesc := List Character

/-- `LogoOptions` from `src/logo.rs` (`size: Option<u32>`,
`character: Option<usize>`, `crop: bool`). -/
structure LogoOptions where
  size : Option Nat
  character : Option Nat
  crop : Bool
deriving DecidableEq

/-- `LogoOptions::default()`: all fields defaulted (`None`, `None`,
`false`). -/
def LogoOptions.default : LogoOptions := ⟨none, none, false⟩

/-- The `Logo` struct of `src/logo.rs`: dimensions plus the RGBA byte
buffer. -/
structure Logo where
  width : Nat
  height : Nat
  data : List Nat
deriving DecidableEq

/-- Outcomes of the fallible rendering paths. `invalidCharacterIndex i`
is the `"{} is not a valid character"` error of `get_logo_data`;
`colorParseError` is the `ParseIntError` propagated out of
`u8::from_str_radix`; `encodeError` is the `EncodeError` the spec names
for the encoding collaborator; `panicked` marks executions on which the
Rust source panics (out-of-bounds index or `.unwrap()` on `Err`). -/
inductive RenderError where
  | invalidCharacterIndex (i : Nat)
  | colorParseError
  | encodeError
  | panicked
deriving DecidableEq

/-- The fixed per-character coordinate table `coords` of
`write_character` (`src/logo.rs` lines 144-169); each entry is the
`[x, y]` base offset of one panel. -/
def coords : List (List (Nat × Nat)) :=
  [ [(0, 0), (0, 16), (0, 24), (0, 32)],
    [(0, 0), (0, 8), (8, 8), (0, 16), (0, 24), (8, 24), (16, 24)],
    [(0, 8), (8, 8), (16, 8), (0, 16), (16, 16), (0, 24), (8, 24), (16, 24)],
    [(0, 8), (8, 8), (16, 8), (0, 16), (0, 24)],
    [(8, 8), (16, 8), (0, 16), (16, 16), (0, 24), (8, 24), (16, 24)],
    [(0, 0), (0, 8), (8, 8), (0, 16), (0, 24), (8, 24), (16, 24)],
    [(0, 8), (8, 8), (16, 8), (0, 16), (16, 16), (0, 24), (8, 24)] ]

/-- Value of one hex digit, as `char::to_digit(16)` used by
`u8::from_str_radix`. -/
def hexDigitVal (c : Char) : Option Nat :=
  if '0' ≤ c ∧ c ≤ '9' then some (c.toNat - '0'.toNat)
  else if 'a' ≤ c ∧ c ≤ 'f' then some (c.toNat - 'a'.toNat + 10)
  else if 'A' ≤ c ∧ c ≤ 'F' then some (c.toNat - 'A'.toNat + 10)
  else none

/-- Convenience total form of `hexDigitVal`. -/
def hexValD (c : Char) : Nat := (hexDigitVal c).getD 0

/-- `u8::from_str_radix(s, 16)`: an optional leading `+` sign, then a
nonempty run of hex digits accumulated with a `u8` range check; any
other input is a `ParseIntError` (here `colorParseError`). -/
def from_str_radix16 (s : List Char) : Except RenderError Nat :=
  let digits := match s with
    | c :: rest => if c = '+' then rest else s
    | [] => []
  match digits with
  | [] => .error .colorParseError
  | _ =>
    match digits.foldlM
        (fun acc c =>
          match hexDigitVal c with
          | some d => if acc * 16 + d ≤ 255 then some (acc * 16 + d) else none
          | none => none) 0 with
    | some v => .ok v
    | none => .error .colorParseError

/-- The color decoding step of `write_character` (`src/logo.rs` lines
183-197): a token of length 7 is read as `#RRGGBB` (hex pairs at byte
offsets 1, 3, 5), one of length 6 as `RRGGBB` (offsets 0, 2, 4), and any
other length yields the fallback gray `(155, 155, 155)`. -/
def decodeColor (pixel : Token) : Except RenderError (Nat × Nat × Nat) :=
  if pixel.length = 7 then
    match from_str_radix16 ((pixel.drop 1).take 2) with
    | .error e => .error e
    | .ok r =>
      match from_str_radix16 ((pixel.drop 3).take 2) with
      | .error e => .error e
      | .ok g =>
        match from_str_radix16 ((pixel.drop 5).take 2) with
        | .error e => .error e
        | .ok b => .ok (r, g, b)
  else if pixel.length = 6 then
    match from_str_radix16 (pixel.take 2) with
    | .error e => .error e
    | .ok r =>
      match from_str_radix16 ((pixel.drop 2).take 2) with
      | .error e => .error e
      | .ok g =>
        match from_str_radix16 ((pixel.drop 4).take 2) with
        | .error e => .error e
        | .ok b => .ok (r, g, b)
  else .ok (155, 155, 155)

/-- One store `image[i] = v` of the source: in-bounds it updates the
buffer, out of bounds the Rust program panics. -/
def setByte (image : List Nat) (i v : Nat) : Except RenderError (List Nat) :=
  if i < image.length then .ok (image.set i v) else .error .panicked

/-- The four stores of `write_character` lines 201-204: `r`, `g`, `b`
and the constant alpha `255` at `image_idx .. image_idx + 3`. -/
def writeRGBA (image : List Nat) (idx r g b : Nat) : Except RenderError (List Nat) :=
  match setByte image idx r with
  | .error e => .error e
  | .ok i1 =>
    match setByte i1 (idx + 1) g with
    | .error e => .error e
    | .ok i2 =>
      match setByte i2 (idx + 2) b with
      | .error e => .error e
      | .ok i3 => setByte i3 (idx + 3) 255

/-- The body of the pixel loop of `write_character` (lines 172-206) for
one token: compute the panel-relative position, index the `coords`
table (unchecked in the source: a miss panics), then replicate the
decoded color over a `pixelSize` by `pixelSize` block. -/
def write_pixel (char_index panel_index pixel_index : Nat) (pixel : Token)
    (pixel_size width : Nat) (letter_x letter_y : Int) (image : List Nat) :
    Except RenderError (List Nat) :=
  let panel_x := pixel_index % 8
  let panel_y := pixel_index / 8
  match coords.get? char_index with
  | none => .error .panicked
  | some char_coords =>
    match char_coords.get? panel_index with
    | none => .error .panicked
    | some base =>
      let x := i32ToUsize (asI32 (asI32 (base.1 + panel_x) + letter_x))
      let y := i32ToUsize (asI32 (asI32 (base.2 + panel_y) + letter_y))
      (List.range pixel_size).foldlM
        (fun image extra_x =>
          (List.range pixel_size).foldlM
            (fun image extra_y =>
              let sx := wrap (extra_x + wrap (x * pixel_size))
              let sy := wrap (extra_y + wrap (y * pixel_size))
              match decodeColor pixel with
              | .error e => .error e
              | .ok rgb =>
                let image_idx := wrap (wrap (sx + wrap (sy * width)) * 4)
                writeRGBA image image_idx rgb.1 rgb.2.1 rgb.2.2)
            image)
        image

/-- The inner `for (pixel_index, pixel) in panel.iter().enumerate()`
loop of `write_character`, with the running pixel index made explicit. -/
def write_pixels (panel : List Token) (pixel_index char_index panel_index : Nat)
    (pixel_size width : Nat) (letter_x letter_y : Int) (image : List Nat) :
    Except RenderError (List Nat) :=
  match panel with
  | [] => .ok image
  | pixel :: rest =>
    match write_pixel char_index panel_index pixel_index pixel
        pixel_size width letter_x letter_y image with
    | .error e => .error e
    | .ok image =>
      write_pixels rest (pixel_index + 1) char_index panel_index
        pixel_size width letter_x letter_y image

/-- The outer `for (panel_index, panel) in chr.iter().enumerate()` loop
of `write_character`, with the running panel index made explicit. -/
def write_panels (chr : List Panel) (panel_index char_index : Nat)
    (pixel_size width : Nat) (letter_x letter_y : Int) (image : List Nat) :
    Except RenderError (List Nat) :=
  match chr with
  | [] => .ok image
  | panel :: rest =>
    match write_pixels panel 0 char_index panel_index
        pixel_size width letter_x letter_y image with
    | .error e => .error e
    | .ok image =>
      write_panels rest (panel_index + 1) char_index
        pixel_size width letter_x letter_y image

/-- `write_character` of `src/logo.rs` (lines 135-211). -/
def write_character (chr : Character) (char_index pixel_size width : Nat)
    (image : List Nat) (letter_x letter_y : Int) : Except RenderError (List Nat) :=
  write_panels chr 0 char_index pixel_size width letter_x letter_y image

/-- The pre-scale x offset of character `char_index` in full-strip mode
(`src/logo.rs` lines 86-90). -/
def full_strip_x (char_index : Nat) : Nat :=
  if char_index = 0 then 0 else (char_index * 3 - 2) * 8

/-- The `for (char_index, chr) in live_logo.logo.iter().enumerate()`
loop of the full-strip branch of `get_logo_data` (lines 85-92), with the
running character index made explicit. -/
def write_characters (chars : List Character) (char_index pixel_size width : Nat)
    (image : List Nat) : Except RenderError (List Nat) :=
  match chars with
  | [] => .ok image
  | chr :: rest =>
    match write_character chr char_index pixel_size width image
        (asI32 (full_strip_x char_index)) 0 with
    | .error e => .error e
    | .ok image => write_characters rest (char_index + 1) pixel_size width image

/-- `get_logo_data` of `src/logo.rs` (lines 74-133), with the cache
snapshot `live_logo.logo` passed explicitly as `logo`. -/
def get_logo_data (logo : LogoDesc) (options : LogoOptions) : Except RenderError Logo :=
  let pixel_size := options.size.getD 1
  match options.character with
  | none =>
    let height := 32 * pixel_size
    let width := 152 * pixel_size
    let image0 := List.replicate (wrap (width * height * 4)) 0
    match write_characters logo 0 pixel_size width image0 with
    | .error e => .error e
    | .ok image => .ok ⟨width, height, image⟩
  | some character =>
    let y : Int :=
      if options.crop then
        if character = 0 ∨ character = 1 ∨ character = 5 then 0 else -8
      else 0
    let height := i32ToUsize (y + 32) * pixel_size
    let width := if character = 0 then 8 * pixel_size else 8 * 3 * pixel_size
    let image0 := List.replicate (wrap (width * height * 4)) 0
    match logo.get? character with
    | none => .error (.invalidCharacterIndex character)
    | some chr =>
      match write_character chr character pixel_size width image0 0 y with
      | .error e => .error e
      | .ok image => .ok ⟨width, height, image⟩

/-- The external PNG encoder collaborator: dimensions (as `u32`) and the
RGBA bytes, yielding the encoded bytes or a failure. -/
abbrev Encoder := Nat → Nat → List Nat → Except Unit (List Nat)

/-- `get_logo_png` of `src/logo.rs` (lines 58-72), with the encoder
passed as a collaborator. The source calls `.unwrap()` on both
`write_header()` and `write_image_data(..)`, so a failing encoder makes
the Rust program panic (`.panicked`), it is not surfaced as an error
value. -/
def get_logo_png (logo : LogoDesc) (options : LogoOptions) (enc : Encoder) :
    Except RenderError (List Nat) :=
  match get_logo_data logo options with
  | .error e => .error e
  | .ok l =>
    match enc (wrap32 l.width) (wrap32 l.height) l.data with
    | .ok png => .ok png
    | .error _ => .error .panicked

/-- Observable outcome of one refresh cycle of `update_logo`
(`src/logo.rs` lines 34-57): the cache contents afterwards, the render
calls made, the payloads handed to `live::send_update`, the payloads
handed to `db::save_logo` (whose own failure is only logged), and the
returned `Result`. -/
structure UpdateOutcome where
  cache : LogoDesc
  renders : List LogoOptions
  broadcasts : List (List Nat)
  saves : List (List Nat)
  result : Except RenderError Unit

/-- `update_logo` of `src/logo.rs` (lines 34-57), with the fetched
description (`reqwest::get(..).json()` result) and the PNG encoder
passed as collaborators and the cache state passed explicitly: compare
the fetched description against the cached one; when equal, do nothing
further; when different, replace the cache, render the default
full-strip view from the freshly swapped cache, broadcast it and hand it
to persistence. -/
def update_logo (cached fetched : LogoDesc) (enc : Encoder) : UpdateOutcome :=
  if fetched = cached then
    ⟨cached, [], [], [], .ok ()⟩
  else
    match get_logo_png fetched LogoOptions.default enc with
    | .ok png => ⟨fetched, [LogoOptions.default], [png], [png], .ok ()⟩
    | .error e => ⟨fetched, [LogoOptions.default], [], [], .error e⟩

/-- `LogoState` of `src/db.rs`: one timeline row (`created_at`
timestamp, `image_png` bytes); timestamps are modelled as `Nat`
instants. -/
structure LogoState where
  time : Nat
  logo : List Nat
deriving DecidableEq

/-- Row order used by the timeline query: ascending `created_at`. -/
def byTime (a b : LogoState) : Prop := a.time ≤ b.time

instance : DecidableRel byTime := fun a b => Nat.decLe a.time b.time

instance : IsTotal LogoState byTime := ⟨fun a b => Nat.le_total a.time b.time⟩

instance : IsTrans LogoState byTime := ⟨fun _ _ _ => Nat.le_trans⟩

/-- Modelled from the spec: the store collaborator's row query executed
by `get_history` through `conn.query` (`src/db.rs` lines 109-116). The
SQL text `SELECT created_at, image_png FROM timeline ORDER BY
created_at [LIMIT n]` is run by the external relational store, which is
not part of `src/`: per the spec's collaborator contract
(`querySnapshots(orderedByTimeAsc, optionalLimit)`) it returns the rows
sorted ascending by `created_at` and, when a limit is given, only the
first `limit` rows of that order. -/
def querySnapshots (store : List LogoState) (limit : Option Nat) : List LogoState :=
  let rows := store.insertionSort byTime
  match limit with
  | some n => rows.take n
  | none => rows

/-- `GetHistoryOptions` of `src/db.rs` (`limit: Option<u32>`). -/
structure GetHistoryOptions where
  limit : Option Nat
deriving DecidableEq

/-- `get_history` of `src/db.rs` (lines 108-139), up to the row level:
the sequence of `LogoState` rows it collects and then serializes. The
JSON serialization, gzip compression and response headers are external
encoding steps that do not change which rows are returned or their
order. -/
def get_history (store : List LogoState) (options : GetHistoryOptions) : List LogoState :=
  querySnapshots store options.limit

/-- The rows a limited history query leaves out: everything after the
first `n` rows of the ascending order. -/
def restAfter (store : List LogoState) (n : Nat) : List LogoState :=
  (store.insertionSort byTime).drop n

/-! ### Helper lemmas -/

/-- Indexing the coordinate table at character index 7 misses: the
table has exactly 7 entries. -/
theorem coords_get?_seven : coords.get? 7 = none := rfl

/-- The pixel-writing step panics for character index 7: the unchecked
`coords[char_index]` lookup is out of bounds. -/
theorem write_pixel_char_seven (pi k : Nat) (tok : Token) (ps w : Nat)
    (lx ly : Int) (img : List Nat) :
    write_pixel 7 pi k tok ps w lx ly img = .error .panicked := rfl

/-- A nonempty panel of a character at index 7 makes the pixel loop
panic at its first token. -/
theorem write_pixels_char_seven (t : Token) (ts : List Token) (k pi ps w : Nat)
    (lx ly : Int) (img : List Nat) :
    write_pixels (t :: ts) k 7 pi ps w lx ly img = .error .panicked := by
  simp [write_pixels, write_pixel_char_seven]

/-- A character at index 7 containing any token panics in the panel
loop; empty panels are skipped without touching the table. -/
theorem write_panels_char_seven (chr : List Panel) (h : ∃ p ∈ chr, p ≠ [])
    (pi ps w : Nat) (lx ly : Int) (img : List Nat) :
    write_panels chr pi 7 ps w lx ly img = .error .panicked := by
  induction chr generalizing pi img with
  | nil => simp at h
  | cons head tail ih =>
    obtain ⟨p, hp, hne⟩ := h
    cases hp with
    | head =>
      cases head with
      | nil => exact absurd rfl hne
      | cons t ts => simp [write_panels, write_pixels_char_seven]
    | tail _ hmem =>
      cases head with
      | nil =>
        simp only [write_panels, write_pixels]
        exact ih ⟨p, hmem, hne⟩ _ _
      | cons t ts => simp [write_panels, write_pixels_char_seven]

/-! ### Claim theorems -/

/-- C5: for every description and every requested character index at or
past the description's character count, rendering returns the
invalid-character error (no panic); the embedding is a pure function of
the cache snapshot, so no state is changed. -/
theorem c5_invalid_character_index (desc : LogoDesc) (i : Nat)
    (sz : Option Nat) (c : Bool) (h : desc.length ≤ i) :
    get_logo_data desc ⟨sz, some i, c⟩ = .error (.invalidCharacterIndex i) := by
  unfold get_logo_data
  simp [List.getElem?_eq_none h]

/-- C5 witness: the empty description with requested index 0. -/
theorem c5_invalid_character_index_witness :
    get_logo_data [] ⟨none, some 0, false⟩ = .error (.invalidCharacterIndex 0) :=
  c5_invalid_character_index [] 0 none false (by decide)

/-- C2: in full-strip mode every successful render at scale `p ≥ 1` has
canvas width `152 * p` and height `32 * p`, and the pre-scale x offset
at which `get_logo_data` places character `i` (with y offset 0) is 0 for
index 0 and `(i * 3 - 2) * 8` otherwise. -/
theorem c2_full_strip_layout (desc : LogoDesc) (p : Nat) (c : Bool) (img : Logo)
    (hp : 1 ≤ p) (h : get_logo_data desc ⟨some p, none, c⟩ = .ok img) :
    img.width = 152 * p ∧ img.height = 32 * p ∧
      full_strip_x 0 = 0 ∧ ∀ i, i ≠ 0 → full_strip_x i = (i * 3 - 2) * 8 := by
  unfold get_logo_data at h
  dsimp only at h
  split at h
  · exact absurd h (by simp)
  · cases h
    exact ⟨rfl, rfl, rfl, fun i hi => by simp [full_strip_x, hi]⟩

/-- C2 witness: the empty description at scale 1 renders to the
152 by 32 all-background canvas. -/
theorem c2_full_strip_layout_witness :
    (Logo.mk 152 32 (List.replicate 19456 0)).width = 152 * 1 ∧
      (Logo.mk 152 32 (List.replicate 19456 0)).height = 32 * 1 ∧
      full_strip_x 0 = 0 ∧ ∀ i, i ≠ 0 → full_strip_x i = (i * 3 - 2) * 8 :=
  c2_full_strip_layout [] 1 false ⟨152, 32, List.replicate 19456 0⟩ (by decide) rfl

/-- C4: in single-character mode with index `i ≤ 6` and scale `p ≥ 1`,
a successful render has width `8 * p` for index 0 and `24 * p`
otherwise, and height `(y + 32) * p` where `y = -8` exactly when `crop`
is set and `i` is none of 0, 1, 5 (so 24 rows pre-scale), else `y = 0`
(32 rows pre-scale). -/
theorem c4_single_character_dimensions (desc : LogoDesc) (p i : Nat) (c : Bool)
    (img : Logo) (hi : i ≤ 6) (hp : 1 ≤ p)
    (h : get_logo_data desc ⟨some p, some i, c⟩ = .ok img) :
    img.width = (if i = 0 then 8 * p else 24 * p) ∧
      img.height = (if c = true ∧ ¬(i = 0 ∨ i = 1 ∨ i = 5) then 24 * p else 32 * p) := by
  unfold get_logo_data at h
  dsimp only at h
  split at h
  · exact absurd h (by simp)
  rename_i chr hchr
  split at h
  · exact absurd h (by simp)
  · cases h
    constructor
    · by_cases h0 : i = 0 <;> simp [h0, Nat.mul_comm 8 3, Nat.mul_assoc]
    · by_cases hc : c <;> by_cases h015 : i = 0 ∨ i = 1 ∨ i = 5 <;>
        simp [hc, h015, i32ToUsize, USIZE]

/-- C4 witness: three empty characters, index 2, crop on, scale 1:
a 24 by 24 canvas. -/
theorem c4_single_character_dimensions_witness :
    (Logo.mk 24 24 (List.replicate 2304 0)).width = (if 2 = 0 then 8 * 1 else 24 * 1) ∧
      (Logo.mk 24 24 (List.replicate 2304 0)).height =
        (if true = true ∧ ¬(2 = 0 ∨ 2 = 1 ∨ 2 = 5) then 24 * 1 else 32 * 1) :=
  c4_single_character_dimensions [[], [], []] 1 2 true
    ⟨24, 24, List.replicate 2304 0⟩ (by decide) (by decide) rfl

/-- C10 counterexample: a description with an 8th character violates the
claimed panic-freedom precondition (at most 7 characters), yet when that
8th character carries no panel data the full-strip render completes
without panicking, so the render is not panic-free *only* under that
precondition, and an 8th character does not by itself cause a panic. -/
theorem c10_counterexample :
    get_logo_data [[], [], [], [], [], [], [], []] ⟨some 1, none, false⟩ =
        .ok ⟨152, 32, List.replicate 19456 0⟩ ∧
      ([[], [], [], [], [], [], [], []] : LogoDesc).length = 8 := ⟨rfl, rfl⟩

/-- C10 amended: full-strip rendering indexes the fixed 7-entry
coordinate table by the description's own character and panel positions
without bounds checks; a description whose 8th character contains at
least one pixel token makes the full-strip render panic instead of
returning an error (an 8th character without tokens is never looked up,
so it renders cleanly). -/
theorem c10_eighth_character_panics (last : Character) (p : Panel)
    (hp : p ∈ last) (hne : p ≠ []) :
    get_logo_data [[], [], [], [], [], [], [], last] ⟨some 1, none, false⟩ =
      .error .panicked := by
  have hw : ∀ (ps w : Nat) (img : List Nat),
      write_characters [[], [], [], [], [], [], [], last] 0 ps w img =
        .error .panicked := by
    intro ps w img
    have h7 : (0 + 1 + 1 + 1 + 1 + 1 + 1 + 1 : Nat) = 7 := rfl
    simp only [write_characters, write_character, write_panels, h7,
      write_panels_char_seven last ⟨p, hp, hne⟩]
  unfold get_logo_data
  dsimp only
  rw [hw]

/-- C10 witness: the 8th character holds one panel with one token. -/
theorem c10_eighth_character_panics_witness :
    get_logo_data [[], [], [], [], [], [], [], [[['f']]]] ⟨some 1, none, false⟩ =
      .error .panicked :=
  c10_eighth_character_panics [[['f']]] [['f']] (by simp) (by simp)

/-- C9 counterexample: with an encoder collaborator that always fails,
the render of the empty description panics (`.unwrap()` in
`get_logo_png`) instead of returning the `EncodeError` value the claim
promises. -/
theorem c9_counterexample :
    get_logo_png [] LogoOptions.default (fun _ _ _ => .error ()) =
        .error .panicked ∧
      RenderError.panicked ≠ RenderError.encodeError := ⟨rfl, by decide⟩

/-- C9 amended: whenever the pixel compositor succeeds but the
downstream PNG encoding collaborator fails, `get_logo_png` panics (both
encoder results are unwrapped), so the failure is a crash, not an
`EncodeError` result value. -/
theorem c9_encode_failure_panics (logo : LogoDesc) (options : LogoOptions)
    (enc : Encoder) (l : Logo) (hok : get_logo_data logo options = .ok l)
    (henc : enc (wrap32 l.width) (wrap32 l.height) l.data = .error ()) :
    get_logo_png logo options enc = .error .panicked := by
  unfold get_logo_png
  rw [hok]
  dsimp only
  rw [henc]

/-- C9 witness: the empty description with the always-failing encoder. -/
theorem c9_encode_failure_panics_witness :
    get_logo_png [] LogoOptions.default (fun _ _ _ => .error ()) =
      .error .panicked :=
  c9_encode_failure_panics [] LogoOptions.default (fun _ _ _ => .error ())
    ⟨152, 32, List.replicate 19456 0⟩ rfl rfl

/-- C6: a refresh cycle that fetches a description structurally equal to
the cached one leaves the cache untouched and performs no render, no
broadcast and no persistence attempt; one that fetches a structurally
different description replaces the cache value with the fetched one
(whatever the subsequent render does). -/
theorem c6_swap_if_changed (cached fetched : LogoDesc) (enc : Encoder) :
    (fetched = cached →
        update_logo cached fetched enc = ⟨cached, [], [], [], .ok ()⟩) ∧
      (fetched ≠ cached → (update_logo cached fetched enc).cache = fetched) := by
  constructor
  · intro h
    simp [update_logo, h]
  · intro h
    unfold update_logo
    rw [if_neg h]
    cases get_logo_png fetched LogoOptions.default enc <;> rfl

/-- C6 witness: equal descriptions are a no-op; a differing fetch
replaces the cached value, both at concrete descriptions. -/
theorem c6_swap_if_changed_witness :
    (update_logo [[]] [[]] (fun _ _ _ => .error ()) =
        ⟨[[]], [], [], [], .ok ()⟩) ∧
      (update_logo [[]] [] (fun _ _ _ => .error ())).cache = [] :=
  ⟨(c6_swap_if_changed [[]] [[]] _).1 rfl,
    (c6_swap_if_changed [[]] [] _).2 (by decide)⟩

/-! ### The alpha-channel invariant (claim C1) -/

/-- Every byte at an alpha position (index congruent to 3 mod 4) of the
buffer is either the zero-initialized background value 0 or the written
value 255. -/
def alphaOk (image : List Nat) : Prop :=
  ∀ i, i % 4 = 3 → image.getD i 0 = 0 ∨ image.getD i 0 = 255

/-- The zero-initialized buffer satisfies the alpha invariant. -/
theorem alphaOk_replicate (n : Nat) : alphaOk (List.replicate n 0) := by
  intro i _
  left
  rw [List.getD_eq_getElem?_getD, List.getElem?_replicate]
  split <;> rfl

/-- A single in-place store preserves the alpha invariant when it does
not target an alpha position or stores 255. -/
theorem alphaOk_set (l : List Nat) (j v : Nat) (h : j % 4 ≠ 3 ∨ v = 255)
    (ha : alphaOk l) : alphaOk (l.set j v) := by
  intro i hi
  rw [List.getD_eq_getElem?_getD, List.getElem?_set]
  rcases eq_or_ne j i with rfl | hne
  · rcases h with hmod | rfl
    · exact absurd hi hmod
    · rw [if_pos rfl]
      split
      · right; rfl
      · left; rfl
  · rw [if_neg hne, ← List.getD_eq_getElem?_getD]
    exact ha i hi

/-- `setByte` preserves the alpha invariant under the same condition. -/
theorem setByte_alphaOk {img img' : List Nat} {j v : Nat}
    (h : setByte img j v = .ok img') (hc : j % 4 ≠ 3 ∨ v = 255)
    (ha : alphaOk img) : alphaOk img' := by
  unfold setByte at h
  split at h
  · cases h
    exact alphaOk_set img j v hc ha
  · exact absurd h (by simp)

/-- The four stores of one logical pixel preserve the alpha invariant:
the first three land at non-alpha positions and the fourth stores 255. -/
theorem writeRGBA_alphaOk {img img' : List Nat} {idx r g b : Nat}
    (hidx : idx % 4 = 0) (h : writeRGBA img idx r g b = .ok img')
    (ha : alphaOk img) : alphaOk img' := by
  unfold writeRGBA at h
  split at h
  · exact absurd h (by simp)
  rename_i i1 h1
  split at h
  · exact absurd h (by simp)
  rename_i i2 h2
  split at h
  · exact absurd h (by simp)
  rename_i i3 h3
  have ha1 := setByte_alphaOk h1 (Or.inl (by omega)) ha
  have ha2 := setByte_alphaOk h2 (Or.inl (by omega)) ha1
  have ha3 := setByte_alphaOk h3 (Or.inl (by omega)) ha2
  exact setByte_alphaOk h (Or.inr rfl) ha3

/-- A `foldlM` over `Except` whose step preserves a predicate preserves
it end to end. -/
theorem foldlM_except_preserve {ε α σ : Type} {P : σ → Prop}
    {f : σ → α → Except ε σ}
    (hf : ∀ s a s', P s → f s a = .ok s' → P s') :
    ∀ (l : List α) (s s' : σ), P s → l.foldlM f s = .ok s' → P s' := by
  intro l
  induction l with
  | nil =>
    intro s s' hP h
    simp only [List.foldlM] at h
    cases h
    exact hP
  | cons a l ih =>
    intro s s' hP h
    simp only [List.foldlM] at h
    cases hfa : f s a with
    | error e =>
      rw [hfa] at h
      exact absurd (show Except.error (α := σ) e = Except.ok s' from h) (by simp)
    | ok s1 =>
      rw [hfa] at h
      exact ih s1 s' (hf s a s1 hP hfa) h

/-- Every buffer index written by the compositor is a multiple of 4. -/
theorem wrap_mul_four_mod (m : Nat) : wrap (m * 4) % 4 = 0 := by
  unfold wrap USIZE
  rw [Nat.mod_mod_of_dvd _ (by norm_num : (4 : Nat) ∣ 2 ^ 64)]
  exact Nat.mul_mod_left m 4

/-- Writing one pixel token (with its whole scale block) preserves the
alpha invariant. -/
theorem write_pixel_alphaOk {ci pi k : Nat} {tok : Token} {ps w : Nat}
    {lx ly : Int} {img img' : List Nat}
    (h : write_pixel ci pi k tok ps w lx ly img = .ok img')
    (ha : alphaOk img) : alphaOk img' := by
  unfold write_pixel at h
  split at h
  · exact absurd h (by simp)
  split at h
  · exact absurd h (by simp)
  refine foldlM_except_preserve ?_ _ _ _ ha h
  intro s a s' hP hstep
  refine foldlM_except_preserve ?_ _ _ _ hP hstep
  intro t b t' hQ hstep'
  dsimp only at hstep'
  split at hstep'
  · exact absurd hstep' (by simp)
  · exact writeRGBA_alphaOk (wrap_mul_four_mod _) hstep' hQ

/-- The pixel loop preserves the alpha invariant. -/
theorem write_pixels_alphaOk {panel : List Token} {k ci pi ps w : Nat}
    {lx ly : Int} {img img' : List Nat}
    (h : write_pixels panel k ci pi ps w lx ly img = .ok img')
    (ha : alphaOk img) : alphaOk img' := by
  induction panel generalizing k img with
  | nil =>
    unfold write_pixels at h
    cases h
    exact ha
  | cons tok rest ih =>
    unfold write_pixels at h
    cases h1 : write_pixel ci pi k tok ps w lx ly img with
    | error e => rw [h1] at h; exact absurd h (by simp)
    | ok img1 =>
      rw [h1] at h
      exact ih h (write_pixel_alphaOk h1 ha)

/-- The panel loop preserves the alpha invariant. -/
theorem write_panels_alphaOk {chr : List Panel} {pi ci ps w : Nat}
    {lx ly : Int} {img img' : List Nat}
    (h : write_panels chr pi ci ps w lx ly img = .ok img')
    (ha : alphaOk img) : alphaOk img' := by
  induction chr generalizing pi img with
  | nil =>
    unfold write_panels at h
    cases h
    exact ha
  | cons panel rest ih =>
    unfold write_panels at h
    cases h1 : write_pixels panel 0 ci pi ps w lx ly img with
    | error e => rw [h1] at h; exact absurd h (by simp)
    | ok img1 =>
      rw [h1] at h
      exact ih h (write_pixels_alphaOk h1 ha)

/-- `write_character` preserves the alpha invariant. -/
theorem write_character_alphaOk {chr : Character} {ci ps w : Nat}
    {lx ly : Int} {img img' : List Nat}
    (h : write_character chr ci ps w img lx ly = .ok img')
    (ha : alphaOk img) : alphaOk img' :=
  write_panels_alphaOk h ha

/-- The full-strip character loop preserves the alpha invariant. -/
theorem write_characters_alphaOk {chars : List Character} {ci ps w : Nat}
    {img img' : List Nat}
    (h : write_characters chars ci ps w img = .ok img')
    (ha : alphaOk img) : alphaOk img' := by
  induction chars generalizing ci img with
  | nil =>
    unfold write_characters at h
    cases h
    exact ha
  | cons chr rest ih =>
    unfold write_characters at h
    cases h1 : write_character chr ci ps w img (asI32 (full_strip_x ci)) 0 with
    | error e => rw [h1] at h; exact absurd h (by simp)
    | ok img1 =>
      rw [h1] at h
      exact ih h (write_character_alphaOk h1 ha)

/-- C1 counterexample: a description whose only character has no panels
renders (single-character mode, scale 1) to an all-zero buffer: the
alpha byte at index 3 is 0, not 255, refuting that every 4th byte of
every rendered buffer is 255. -/
theorem c1_counterexample :
    get_logo_data [[]] ⟨some 1, some 0, false⟩ =
        .ok ⟨8, 32, List.replicate 1024 0⟩ ∧
      (List.replicate 1024 (0 : Nat)).getD 3 0 = 0 ∧ (0 : Nat) ≠ 255 :=
  ⟨rfl, by decide, by decide⟩

/-- C1 amended: for every description and every options value with
pixel size at least 1, every 4th byte (alpha) of a successfully
rendered buffer is 255 for the pixels the compositor wrote and 0 for
the untouched zero-initialized background, hence always 0 or 255. -/
theorem c1_alpha_bytes (desc : LogoDesc) (options : LogoOptions) (img : Logo)
    (hp : 1 ≤ options.size.getD 1) (h : get_logo_data desc options = .ok img) :
    ∀ i, i % 4 = 3 → img.data.getD i 0 = 0 ∨ img.data.getD i 0 = 255 := by
  have hbase : alphaOk img.data := by
    unfold get_logo_data at h
    cases hc : options.character with
    | none =>
      rw [hc] at h
      dsimp only at h
      cases hw : write_characters desc 0 (options.size.getD 1)
          (152 * options.size.getD 1)
          (List.replicate
            (wrap (152 * options.size.getD 1 * (32 * options.size.getD 1) * 4)) 0) with
      | error e => rw [hw] at h; exact absurd h (by simp)
      | ok image =>
        rw [hw] at h
        cases h
        exact write_characters_alphaOk hw (alphaOk_replicate _)
    | some character =>
      rw [hc] at h
      dsimp only at h
      split at h
      · exact absurd h (by simp)
      rename_i chr hchr
      cases hw : write_character chr character (options.size.getD 1)
          (if character = 0 then 8 * options.size.getD 1
            else 8 * 3 * options.size.getD 1)
          (List.replicate
            (wrap ((if character = 0 then 8 * options.size.getD 1
                else 8 * 3 * options.size.getD 1) *
              (i32ToUsize
                  ((if options.crop = true then
                      if character = 0 ∨ character = 1 ∨ character = 5 then 0 else -8
                    else 0) + 32) * options.size.getD 1) * 4)) 0)
          0
          (if options.crop = true then
            if character = 0 ∨ character = 1 ∨ character = 5 then 0 else -8
          else 0) with
      | error e => rw [hw] at h; exact absurd h (by simp)
      | ok image =>
        rw [hw] at h
        cases h
        exact write_character_alphaOk hw (alphaOk_replicate _)
  exact hbase

/-- C1 witness: a concrete successful render whose alpha byte at index
3 is 0 or 255. -/
theorem c1_alpha_bytes_witness :
    (Logo.mk 8 32 (List.replicate 1024 0)).data.getD 3 0 = 0 ∨
      (Logo.mk 8 32 (List.replicate 1024 0)).data.getD 3 0 = 255 :=
  c1_alpha_bytes [[]] ⟨some 1, some 0, false⟩ ⟨8, 32, List.replicate 1024 0⟩
    (by decide) rfl 3 (by decide)

/-! ### Color decoder lemmas (claims C3, C8) -/

/-- Character order gives byte order. -/
theorem char_toNat_le {c d : Char} (h : c ≤ d) : c.toNat ≤ d.toNat :=
  Char.le_def.mp h

/-- A recognized hex digit's value is below 16. -/
theorem hexDigitVal_le (c : Char) (v : Nat) (h : hexDigitVal c = some v) :
    v ≤ 15 := by
  unfold hexDigitVal at h
  split at h
  · rename_i h1
    cases h
    have hb : c.toNat ≤ 57 := by simpa using char_toNat_le h1.2
    have h0 : Char.toNat '0' = 48 := rfl
    omega
  split at h
  · rename_i h2
    cases h
    have hb : c.toNat ≤ 102 := by simpa using char_toNat_le h2.2
    have ha : 97 ≤ c.toNat := by simpa using char_toNat_le h2.1
    have h0 : Char.toNat 'a' = 97 := rfl
    omega
  split at h
  · rename_i h3
    cases h
    have hb : c.toNat ≤ 70 := by simpa using char_toNat_le h3.2
    have ha : 65 ≤ c.toNat := by simpa using char_toNat_le h3.1
    have h0 : Char.toNat 'A' = 65 := rfl
    omega
  · exact absurd h (by simp)

/-- The plus sign is not a hex digit. -/
theorem hexDigitVal_plus : hexDigitVal '+' = none := by decide

/-- Parsing a two-hex-digit slice yields its place value; two digits can
never overflow the `u8` range check. -/
theorem from_str_radix16_pair (a b : Char) (va vb : Nat)
    (hA : hexDigitVal a = some va) (hB : hexDigitVal b = some vb) :
    from_str_radix16 [a, b] = .ok (16 * va + vb) := by
  have hane : a ≠ '+' := by
    intro hEq
    rw [hEq, hexDigitVal_plus] at hA
    exact absurd hA (by simp)
  have hva := hexDigitVal_le a va hA
  have hvb := hexDigitVal_le b vb hB
  have h1 : 0 * 16 + va ≤ 255 := by omega
  have h2 : va * 16 + vb ≤ 255 := by omega
  unfold from_str_radix16
  simp only [if_neg hane, List.foldlM, hA, hB]
  rw [if_pos h1]
  simp only [Option.bind_eq_bind, Option.some_bind]
  have h2' : (0 * 16 + va) * 16 + vb ≤ 255 := by omega
  rw [if_pos h2']
  simp only [Option.bind_eq_bind, Option.some_bind]
  simp only [Except.ok.injEq]
  omega

/-- `from_str_radix16` only ever fails with the color parse error. -/
theorem from_str_radix16_error_eq (s : List Char) (e : RenderError)
    (h : from_str_radix16 s = .error e) : e = .colorParseError := by
  unfold from_str_radix16 at h
  cases s with
  | nil =>
    dsimp only at h
    cases h
    rfl
  | cons c rest =>
    dsimp only at h
    by_cases hc : c = '+'
    · rw [if_pos hc] at h
      cases rest with
      | nil => cases h; rfl
      | cons d ds =>
        dsimp only at h
        split at h
        · exact absurd h (by simp)
        · cases h; rfl
    · rw [if_neg hc] at h
      dsimp only at h
      split at h
      · exact absurd h (by simp)
      · cases h; rfl

/-- A failing two-character parse pinpoints a non-hex character. -/
theorem from_str_radix16_pair_error (a b : Char) (e : RenderError)
    (h : from_str_radix16 [a, b] = .error e) :
    e = .colorParseError ∧ (hexDigitVal a = none ∨ hexDigitVal b = none) := by
  refine ⟨from_str_radix16_error_eq _ _ h, ?_⟩
  cases hA : hexDigitVal a with
  | none => exact Or.inl rfl
  | some va =>
    cases hB : hexDigitVal b with
    | none => exact Or.inr rfl
    | some vb =>
      rw [from_str_radix16_pair a b va vb hA hB] at h
      exact absurd h (by simp)

/-- A list of length 7 is a 7-tuple. -/
theorem list_len7 {α : Type} (t : List α) (h : t.length = 7) :
    ∃ a b c d e f g, t = [a, b, c, d, e, f, g] := by
  rcases t with _ | ⟨a, _ | ⟨b, _ | ⟨c, _ | ⟨d, _ | ⟨e, _ | ⟨f, _ | ⟨g, rest⟩⟩⟩⟩⟩⟩⟩ <;>
    simp_all

/-- A list of length 6 is a 6-tuple. -/
theorem list_len6 {α : Type} (t : List α) (h : t.length = 6) :
    ∃ a b c d e f, t = [a, b, c, d, e, f] := by
  rcases t with _ | ⟨a, _ | ⟨b, _ | ⟨c, _ | ⟨d, _ | ⟨e, _ | ⟨f, rest⟩⟩⟩⟩⟩⟩ <;>
    simp_all

/-- On a 7-character token the decoder parses the pairs at offsets 1, 3
and 5, ignoring the first character. -/
theorem decodeColor_len7 (c0 c1 c2 c3 c4 c5 c6 : Char) :
    decodeColor [c0, c1, c2, c3, c4, c5, c6] =
      (match from_str_radix16 [c1, c2] with
        | .error e => .error e
        | .ok r =>
          match from_str_radix16 [c3, c4] with
          | .error e => .error e
          | .ok g =>
            match from_str_radix16 [c5, c6] with
            | .error e => .error e
            | .ok b => .ok (r, g, b)) := rfl

/-- On a 6-character token the decoder parses the pairs at offsets 0, 2
and 4. -/
theorem decodeColor_len6 (c0 c1 c2 c3 c4 c5 : Char) :
    decodeColor [c0, c1, c2, c3, c4, c5] =
      (match from_str_radix16 [c0, c1] with
        | .error e => .error e
        | .ok r =>
          match from_str_radix16 [c2, c3] with
          | .error e => .error e
          | .ok g =>
            match from_str_radix16 [c4, c5] with
            | .error e => .error e
            | .ok b => .ok (r, g, b)) := rfl

/-- C3: a token of length 7 decodes to the RGB triple given by its hex
pairs at offsets 1, 3 and 5 (the leading character is ignored); one of
length 6 to the triple of its hex pairs at offsets 0, 2 and 4; a token
of any other length decodes to the fallback gray (155, 155, 155)
without error. -/
theorem c3_color_decoding (t : Token) :
    (t.length = 7 → (∀ c ∈ t.drop 1, (hexDigitVal c).isSome = true) →
        decodeColor t =
          .ok (16 * hexValD (t.getD 1 ' ') + hexValD (t.getD 2 ' '),
            16 * hexValD (t.getD 3 ' ') + hexValD (t.getD 4 ' '),
            16 * hexValD (t.getD 5 ' ') + hexValD (t.getD 6 ' '))) ∧
      (t.length = 6 → (∀ c ∈ t, (hexDigitVal c).isSome = true) →
        decodeColor t =
          .ok (16 * hexValD (t.getD 0 ' ') + hexValD (t.getD 1 ' '),
            16 * hexValD (t.getD 2 ' ') + hexValD (t.getD 3 ' '),
            16 * hexValD (t.getD 4 ' ') + hexValD (t.getD 5 ' '))) ∧
      (t.length ≠ 7 → t.length ≠ 6 → decodeColor t = .ok (155, 155, 155)) := by
  refine ⟨?_, ?_, ?_⟩
  · intro h7 hhex
    obtain ⟨c0, c1, c2, c3, c4, c5, c6, rfl⟩ := list_len7 t h7
    obtain ⟨v1, hv1⟩ := Option.isSome_iff_exists.mp (hhex c1 (by simp))
    obtain ⟨v2, hv2⟩ := Option.isSome_iff_exists.mp (hhex c2 (by simp))
    obtain ⟨v3, hv3⟩ := Option.isSome_iff_exists.mp (hhex c3 (by simp))
    obtain ⟨v4, hv4⟩ := Option.isSome_iff_exists.mp (hhex c4 (by simp))
    obtain ⟨v5, hv5⟩ := Option.isSome_iff_exists.mp (hhex c5 (by simp))
    obtain ⟨v6, hv6⟩ := Option.isSome_iff_exists.mp (hhex c6 (by simp))
    rw [decodeColor_len7, from_str_radix16_pair c1 c2 v1 v2 hv1 hv2,
      from_str_radix16_pair c3 c4 v3 v4 hv3 hv4,
      from_str_radix16_pair c5 c6 v5 v6 hv5 hv6]
    simp [hexValD, hv1, hv2, hv3, hv4, hv5, hv6]
  · intro h6 hhex
    obtain ⟨c0, c1, c2, c3, c4, c5, rfl⟩ := list_len6 t h6
    obtain ⟨v0, hv0⟩ := Option.isSome_iff_exists.mp (hhex c0 (by simp))
    obtain ⟨v1, hv1⟩ := Option.isSome_iff_exists.mp (hhex c1 (by simp))
    obtain ⟨v2, hv2⟩ := Option.isSome_iff_exists.mp (hhex c2 (by simp))
    obtain ⟨v3, hv3⟩ := Option.isSome_iff_exists.mp (hhex c3 (by simp))
    obtain ⟨v4, hv4⟩ := Option.isSome_iff_exists.mp (hhex c4 (by simp))
    obtain ⟨v5, hv5⟩ := Option.isSome_iff_exists.mp (hhex c5 (by simp))
    rw [decodeColor_len6, from_str_radix16_pair c0 c1 v0 v1 hv0 hv1,
      from_str_radix16_pair c2 c3 v2 v3 hv2 hv3,
      from_str_radix16_pair c4 c5 v4 v5 hv4 hv5]
    simp [hexValD, hv0, hv1, hv2, hv3, hv4, hv5]
  · intro h7 h6
    unfold decodeColor
    rw [if_neg h7, if_neg h6]

/-- C3 witness: the hash-prefixed token of 0xa1, 0xB2, 0xc3. -/
theorem c3_color_decoding_witness :
    decodeColor ['#', 'a', '1', 'B', '2', 'c', '3'] = .ok (161, 178, 195) :=
  ((c3_color_decoding ['#', 'a', '1', 'B', '2', 'c', '3']).1 rfl
    (by decide)).trans (by rfl)

/-- C8: the color decoding step fails only with the color parse error,
only on a token of recognized length (6 or 7) containing a non-hex
character; tokens of any other length never fail (the decoder returns
the fallback gray and never panics); and a color parse failure inside
the compositor propagates through `get_logo_png` to the caller of the
render. -/
theorem c8_color_parse_errors (t : Token) :
    (∀ e, decodeColor t = .error e →
        e = .colorParseError ∧ (t.length = 6 ∨ t.length = 7) ∧
          (t.any fun c => (hexDigitVal c).isNone) = true) ∧
      (t.length ≠ 6 → t.length ≠ 7 → decodeColor t = .ok (155, 155, 155)) ∧
      (∀ (desc : LogoDesc) (opts : LogoOptions) (enc : Encoder),
        get_logo_data desc opts = .error .colorParseError →
          get_logo_png desc opts enc = .error .colorParseError) := by
  refine ⟨?_, ?_, ?_⟩
  · intro e he
    by_cases h7 : t.length = 7
    · obtain ⟨c0, c1, c2, c3, c4, c5, c6, rfl⟩ := list_len7 t h7
      rw [decodeColor_len7] at he
      refine ⟨?_, Or.inr h7, ?_⟩
      all_goals {
        cases hp1 : from_str_radix16 [c1, c2] with
        | error e1 =>
          rw [hp1] at he
          obtain ⟨he1, hnh⟩ := from_str_radix16_pair_error c1 c2 e1 hp1
          cases he
          first
            | exact he1
            | · rcases hnh with hnh | hnh <;> simp [List.any_eq_true, hnh]
        | ok r =>
          rw [hp1] at he
          dsimp only at he
          cases hp2 : from_str_radix16 [c3, c4] with
          | error e2 =>
            rw [hp2] at he
            obtain ⟨he2, hnh⟩ := from_str_radix16_pair_error c3 c4 e2 hp2
            cases he
            first
              | exact he2
              | · rcases hnh with hnh | hnh <;> simp [List.any_eq_true, hnh]
          | ok g =>
            rw [hp2] at he
            dsimp only at he
            cases hp3 : from_str_radix16 [c5, c6] with
            | error e3 =>
              rw [hp3] at he
              obtain ⟨he3, hnh⟩ := from_str_radix16_pair_error c5 c6 e3 hp3
              cases he
              first
                | exact he3
                | · rcases hnh with hnh | hnh <;> simp [List.any_eq_true, hnh]
            | ok b =>
              rw [hp3] at he
              exact absurd he (by simp)
      }
    · by_cases h6 : t.length = 6
      · obtain ⟨c0, c1, c2, c3, c4, c5, rfl⟩ := list_len6 t h6
        rw [decodeColor_len6] at he
        refine ⟨?_, Or.inl h6, ?_⟩
        all_goals {
          cases hp1 : from_str_radix16 [c0, c1] with
          | error e1 =>
            rw [hp1] at he
            obtain ⟨he1, hnh⟩ := from_str_radix16_pair_error c0 c1 e1 hp1
            cases he
            first
              | exact he1
              | · rcases hnh with hnh | hnh <;> simp [List.any_eq_true, hnh]
          | ok r =>
            rw [hp1] at he
            dsimp only at he
            cases hp2 : from_str_radix16 [c2, c3] with
            | error e2 =>
              rw [hp2] at he
              obtain ⟨he2, hnh⟩ := from_str_radix16_pair_error c2 c3 e2 hp2
              cases he
              first
                | exact he2
                | · rcases hnh with hnh | hnh <;> simp [List.any_eq_true, hnh]
            | ok g =>
              rw [hp2] at he
              dsimp only at he
              cases hp3 : from_str_radix16 [c4, c5] with
              | error e3 =>
                rw [hp3] at he
                obtain ⟨he3, hnh⟩ := from_str_radix16_pair_error c4 c5 e3 hp3
                cases he
                first
                  | exact he3
                  | · rcases hnh with hnh | hnh <;> simp [List.any_eq_true, hnh]
              | ok b =>
                rw [hp3] at he
                exact absurd he (by simp)
        }
      · unfold decodeColor at he
        rw [if_neg h7, if_neg h6] at he
        exact absurd he (by simp)
  · intro h6 h7
    unfold decodeColor
    rw [if_neg h7, if_neg h6]
  · intro desc opts enc h
    unfold get_logo_png
    rw [h]

/-- C8 witness: a recognized-length token with non-hex characters. -/
theorem c8_color_parse_errors_witness :
    RenderError.colorParseError = RenderError.colorParseError ∧
      ((['z', 'z', '0', '0', '0', '0'] : Token).length = 6 ∨
        (['z', 'z', '0', '0', '0', '0'] : Token).length = 7) ∧
      ((['z', 'z', '0', '0', '0', '0'] : Token).any fun c =>
        (hexDigitVal c).isNone) = true :=
  (c8_color_parse_errors ['z', 'z', '0', '0', '0', '0']).1 .colorParseError rfl

/-- C7: with a limit `n` the history query returns exactly the `n`
oldest entries (smallest timestamps): the result is sorted ascending by
timestamp, has length `min n` (store size), and together with the
left-out rows is a permutation of the store in which every returned
entry's timestamp is at most every left-out entry's; with no limit it
returns all entries in ascending timestamp order. -/
theorem c7_history_oldest_first (store : List LogoState) :
    (∀ n, List.Sorted byTime (get_history store ⟨some n⟩) ∧
        (get_history store ⟨some n⟩).length = min n store.length ∧
        (get_history store ⟨some n⟩ ++ restAfter store n).Perm store ∧
        ∀ x ∈ get_history store ⟨some n⟩, ∀ y ∈ restAfter store n,
          x.time ≤ y.time) ∧
      (List.Sorted byTime (get_history store ⟨none⟩) ∧
        (get_history store ⟨none⟩).Perm store) := by
  have hsorted : List.Sorted byTime (store.insertionSort byTime) :=
    List.sorted_insertionSort byTime store
  have hperm : (store.insertionSort byTime).Perm store :=
    List.perm_insertionSort byTime store
  constructor
  · intro n
    refine ⟨?_, ?_, ?_, ?_⟩
    · show List.Sorted byTime ((store.insertionSort byTime).take n)
      exact List.Pairwise.sublist (List.take_sublist n _) hsorted
    · show ((store.insertionSort byTime).take n).length = min n store.length
      rw [List.length_take, hperm.length_eq]
    · show ((store.insertionSort byTime).take n ++
        (store.insertionSort byTime).drop n).Perm store
      rw [List.take_append_drop]
      exact hperm
    · intro x hx y hy
      have hsplit : List.Sorted byTime ((store.insertionSort byTime).take n ++
          (store.insertionSort byTime).drop n) := by
        rw [List.take_append_drop]
        exact hsorted
      exact (List.pairwise_append.mp hsplit).2.2 x hx y hy
  · exact ⟨hsorted, hperm⟩

/-- C7 witness: a concrete two-row store with limit 1. -/
theorem c7_history_oldest_first_witness :
    List.Sorted byTime
        (get_history [⟨3, []⟩, ⟨1, []⟩] ⟨some 1⟩) ∧
      (get_history [⟨3, []⟩, ⟨1, []⟩] ⟨some 1⟩).length =
        min 1 ([⟨3, []⟩, ⟨1, []⟩] : List LogoState).length :=
  ⟨((c7_history_oldest_first [⟨3, []⟩, ⟨1, []⟩]).1 1).1,
    ((c7_history_oldest_first [⟨3, []⟩, ⟨1, []⟩]).1 1).2.1⟩
